import Mathlib

/-
Verification of the JeevanSetu hospital surge prediction pipeline
(src/hospital/src/hospital/{crew.py, main.py, app.py}) against its
natural-language specification.  The Python source is shallowly
embedded: pydantic report models become field-schema tables with an
executable validator, `run_with_retry` becomes a recursion over a list
of per-attempt outcomes, and the input validation of `main.py` becomes
a pure function over an input map.  Components the spec describes but
the repository does not contain (the credential rotator and the
sequential kickoff of the external crewai library) are modelled from
the spec and marked as such in their doc comments.
-/

set_option autoImplicit false

namespace JeevanSetu

/-- The empty string, used for absent input fields. -/
def emptyStr : String := ""

/-! ## String helpers: substring containment and ASCII lowering -/

/-- Does the first list occur as a leading segment of the second? -/
def hasPre : List Char → List Char → Bool
  | [], _ => true
  | _ :: _, [] => false
  | a :: as, b :: bs => a == b && hasPre as bs

/-- Does `pat` occur as a contiguous substring of `hay`?  Embeds the
Python `in` operator on strings as used by `run_with_retry`. -/
def hasSub (pat : List Char) : List Char → Bool
  | [] => pat.isEmpty
  | c :: rest => hasPre pat (c :: rest) || hasSub pat rest

/-- Character list of a string lowered characterwise; embeds Python
`str.lower()` for the ASCII messages the code matches on. -/
def lowerChars (s : String) : List Char :=
  s.toList.map Char.toLower

/-- Embeds the Python test `pat in hay`. -/
def containsStr (hay pat : String) : Bool :=
  hasSub pat.toList hay.toList

/-- Embeds the Python test `pat in hay.lower()`. -/
def containsLower (hay pat : String) : Bool :=
  hasSub pat.toList (lowerChars hay)

/-! ## JSON-like values for pydantic records

The four report models of crew.py only use field types `str`, `int`,
`float` and `List[str]`, so a flat value type suffices. -/

inductive JVal where
  | str (s : String)
  | int (n : Int)
  | num (q : ℚ)
  | strList (xs : List String)
deriving DecidableEq, Repr

/-- The pydantic field annotations occurring in crew.py. -/
inductive FType where
  | fstr
  | fint
  | ffloat
  | flistStr
deriving DecidableEq, Repr

/-- Does a value satisfy a field annotation?  An `int` is accepted for
a `float` field as pydantic coerces it. -/
def typeOk : FType → JVal → Bool
  | .fstr, .str _ => true
  | .fint, .int _ => true
  | .ffloat, .num _ => true
  | .ffloat, .int _ => true
  | .flistStr, .strList _ => true
  | _, _ => false

/-- One declared pydantic field: name, annotation and declared default
(every field of the four report models of crew.py has a default). -/
structure FieldSpec where
  name : String
  ftype : FType
  default : JVal
deriving DecidableEq, Repr

/-! ## Field-name and default-value constants (crew.py lines 54-94) -/

def fReportType : String := "report_type"
def fRegion : String := "region"
def fRiskLevel : String := "risk_level"
def fTimeline : String := "timeline"
def fAffectedDepartments : String := "affected_departments"
def fRecommendations : String := "recommendations"
def fConfidenceScore : String := "confidence_score"
def fDepartment : String := "department"
def fRequiredStaff : String := "required_staff"
def fStaffType : String := "staff_type"
def fShiftSchedule : String := "shift_schedule"
def fBackupPlan : String := "backup_plan"
def fItemCategory : String := "item_category"
def fItemName : String := "item_name"
def fRequiredQuantity : String := "required_quantity"
def fCurrentStock : String := "current_stock"
def fReorderThreshold : String := "reorder_threshold"
def fUrgency : String := "urgency"
def fAdvisoryType : String := "advisory_type"
def fLanguage : String := "language"
def fTargetAudience : String := "target_audience"
def fMessage : String := "message"
def fDistributionChannels : String := "distribution_channels"

def dGeneralForecast : String := "general_forecast"
def dUnknown : String := "Unknown"
def dMedium : String := "Medium"
def dNext30Days : String := "Next 30 days"
def dEmergency : String := "Emergency"
def dGeneralMedicine : String := "General Medicine"
def dStdPreparedness : String := "Standard preparedness measures"
def dMixed : String := "Mixed"
def dStdShifts : String := "Standard 8-hour shifts"
def dOnCall : String := "On-call staff available"
def dGeneralCat : String := "General"
def dBasicSupplies : String := "Basic supplies"
def dGeneralLower : String := "general"
def dEnglish : String := "English"
def dGeneralPublic : String := "General public"
def dFollowGuidelines : String := "Follow standard health guidelines"
def dHospitalWebsite : String := "Hospital website"
def dSocialMedia : String := "Social media"

/-! ## The four report schemas (crew.py lines 54-94)

Each pydantic model carries `ConfigDict(extra="forbid")` and gives
every field a declared default. -/

/-- Fields of `class SurgeReport(BaseModel)`. -/
def surgeReportSchema : List FieldSpec :=
  [ ⟨fReportType, .fstr, .str dGeneralForecast⟩,
    ⟨fRegion, .fstr, .str dUnknown⟩,
    ⟨fRiskLevel, .fstr, .str dMedium⟩,
    ⟨fTimeline, .fstr, .str dNext30Days⟩,
    ⟨fAffectedDepartments, .flistStr, .strList [dEmergency, dGeneralMedicine]⟩,
    ⟨fRecommendations, .fstr, .str dStdPreparedness⟩,
    ⟨fConfidenceScore, .ffloat, .num ((7 : ℚ) / 10)⟩ ]

/-- Fields of `class StaffingPlan(BaseModel)`. -/
def staffingPlanSchema : List FieldSpec :=
  [ ⟨fDepartment, .fstr, .str dEmergency⟩,
    ⟨fRequiredStaff, .fint, .int 10⟩,
    ⟨fStaffType, .fstr, .str dMixed⟩,
    ⟨fShiftSchedule, .fstr, .str dStdShifts⟩,
    ⟨fBackupPlan, .fstr, .str dOnCall⟩ ]

/-- Fields of `class InventoryRequirement(BaseModel)`. -/
def inventoryRequirementSchema : List FieldSpec :=
  [ ⟨fItemCategory, .fstr, .str dGeneralCat⟩,
    ⟨fItemName, .fstr, .str dBasicSupplies⟩,
    ⟨fRequiredQuantity, .fint, .int 100⟩,
    ⟨fCurrentStock, .fint, .int 50⟩,
    ⟨fReorderThreshold, .fint, .int 25⟩,
    ⟨fUrgency, .fstr, .str dMedium⟩ ]

/-- Fields of `class PatientAdvisory(BaseModel)`. -/
def patientAdvisorySchema : List FieldSpec :=
  [ ⟨fAdvisoryType, .fstr, .str dGeneralLower⟩,
    ⟨fLanguage, .fstr, .str dEnglish⟩,
    ⟨fTargetAudience, .fstr, .str dGeneralPublic⟩,
    ⟨fMessage, .fstr, .str dFollowGuidelines⟩,
    ⟨fDistributionChannels, .flistStr, .strList [dHospitalWebsite, dSocialMedia]⟩ ]

/-- `class StaffingPlanList(RootModel)` declares
`root: List[StaffingPlan] = Field(default=[])`: its declared default is
the empty list. -/
def staffingPlanListDefault : List (List (String × JVal)) := []

/-! ## The validator (pydantic `model_validate` semantics)

A raw record is a list of (field name, value) pairs.  With
`extra="forbid"` an undeclared field is rejected; a declared field that
is present must satisfy its annotation; a declared field that is absent
is filled with its declared default. -/

def extraForbiddenErr : String := "extra fields are forbidden"
def typeErr : String := "field value has wrong type"

/-- First value bound to `n` in a raw record. -/
def lookupField (rec : List (String × JVal)) (n : String) : Option JVal :=
  (rec.find? (fun p => p.1 == n)).map (fun p => p.2)

/-- Is `n` a declared field name of the schema? -/
def declaredIn (schema : List FieldSpec) (n : String) : Bool :=
  schema.any (fun f => f.name == n)

/-- Embeds `Model.model_validate(rec)` for a model with
`ConfigDict(extra="forbid")` whose every field has a declared default:
reject undeclared fields, check annotations of present fields, fill
absent fields with their defaults. -/
def validateRecord (schema : List FieldSpec) (rec : List (String × JVal)) :
    Except String (List (String × JVal)) :=
  if rec.any (fun p => !(declaredIn schema p.1)) then
    .error extraForbiddenErr
  else if schema.all (fun f =>
      match lookupField rec f.name with
      | some v => typeOk f.ftype v
      | none => true) then
    .ok (schema.map (fun f => (f.name, (lookupField rec f.name).getD f.default)))
  else
    .error typeErr

/-- Embeds `StaffingPlanList.model_validate`: each element validates
independently as a `StaffingPlan`; the first failing element fails the
whole list. -/
def validateStaffingPlanList :
    List (List (String × JVal)) → Except String (List (List (String × JVal)))
  | [] => .ok []
  | r :: rs =>
    match validateRecord staffingPlanSchema r with
    | .error e => .error e
    | .ok v =>
      match validateStaffingPlanList rs with
      | .error e => .error e
      | .ok vs => .ok (v :: vs)

/-- A raw record is well formed for a schema when every present field
is declared and satisfies its annotation. -/
def wellFormed (schema : List FieldSpec) (rec : List (String × JVal)) : Bool :=
  rec.all (fun p =>
    declaredIn schema p.1 &&
    schema.all (fun f => !(f.name == p.1) || typeOk f.ftype p.2))

/-! ## Run Controller input validation (main.py `get_inputs`, lines 27-69)

`get_inputs` builds the input map, computes
`missing_fields = [field for field in required_fields if not inputs[field]]`
over the four mandatory fields and, when any is missing, exits with the
whole batch listed before `HospitalSurgePredictionCrew()` is ever
constructed (main.py `run`, lines 72-96).  The printed-list-and-exit is
embedded as the error value of an `Except`. -/

def iHospitalName : String := "hospital_name"
def iRegion : String := "region"
def iCurrentStaffing : String := "current_staffing"
def iAdministratorName : String := "administrator_name"

/-- `required_fields` of main.py line 48. -/
def requiredFields : List String :=
  [iHospitalName, iRegion, iCurrentStaffing, iAdministratorName]

/-- An input map assigns each field name its string value; an absent
environment variable yields `""` (the `os.getenv(..., "")` default),
so "missing" means the empty string, exactly the falsiness test of
`if not inputs[field]`. -/
def missingFields (inputs : String → String) : List String :=
  requiredFields.filter (fun f => inputs f == emptyStr)

/-! ## The crew task list (crew.py lines 322-399)

The seven `@task` methods in declared order, each with the
`output_json` schema the code passes to `_create_task_with_fallback`.
The crew is built with `process=Process.sequential`. -/

inductive SchemaKind where
  | surgeReport
  | staffingPlanList
  | inventoryRequirement
  | patientAdvisory
deriving DecidableEq, Repr

/-- One task of the crew: its config key and its output schema. -/
structure TaskDef where
  id : String
  schema : SchemaKind
deriving DecidableEq, Repr

def tFestival : String := "festival_event_analysis"
def tPollution : String := "pollution_health_risk_assessment"
def tEpidemic : String := "epidemic_outbreak_surveillance"
def tStaffing : String := "staffing_optimization_planning"
def tSupply : String := "supply_chain_inventory_management"
def tAdvisory : String := "patient_advisory_preparation"
def tOrchestration : String := "hospital_preparedness_orchestration"

/-- The seven tasks in the order the `@task` methods are declared in
crew.py, each with the `output_json` model the method passes. -/
def crewTasks : List TaskDef :=
  [ ⟨tFestival, .surgeReport⟩,
    ⟨tPollution, .surgeReport⟩,
    ⟨tEpidemic, .surgeReport⟩,
    ⟨tStaffing, .staffingPlanList⟩,
    ⟨tSupply, .inventoryRequirement⟩,
    ⟨tAdvisory, .patientAdvisory⟩,
    ⟨tOrchestration, .surgeReport⟩ ]

/-- Modelled from the spec: the sequential kickoff semantics of the
external crewai library (`Crew(..., process=Process.sequential)` then
`kickoff`), which is not part of this repository.  Per the spec, tasks
execute strictly sequentially in declared order, each appending its
validated output to the run log, and the chain halts at the first
failing task.  `outcome` gives each task's validated result. -/
def runTasks (outcome : String → Except String JVal) :
    List TaskDef → List (String × JVal) → Except String (List (String × JVal))
  | [], log => .ok log.reverse
  | t :: ts, log =>
    match outcome t.id with
    | .error e => .error e
    | .ok r => runTasks outcome ts ((t.id, r) :: log)

/-- Result of one top-level run: the outcome together with how many
agent objects were constructed before it was produced. -/
structure RunTrace where
  result : Except (List String) (List (String × JVal))
  agentConstructions : Nat
deriving Repr

/-- Embeds main.py `run` (lines 72-96): `get_inputs` validates the four
mandatory fields and exits with the full batch of missing ones before
`HospitalSurgePredictionCrew()` is constructed; only on success are the
seven agents built and the crew kicked off sequentially. -/
def runController (inputs : String → String)
    (outcome : String → Except String JVal) : RunTrace :=
  let missing := missingFields inputs
  if missing.isEmpty then
    { result := (runTasks outcome crewTasks []).mapError (fun e => [e]),
      agentConstructions := crewTasks.length }
  else
    { result := .error missing, agentConstructions := 0 }

/-! ## Concrete end-to-end scenario inputs (spec section 8) -/

def vCityGeneral : String := "City General"
def vNorthDistrict : String := "North District"
def vStaffingLevels : String := "50 doctors, 120 nurses"
def vDrRao : String := "Dr. Rao"

/-- The complete scenario inputs of the spec. -/
def cityGeneralInputs : String → String := fun f =>
  if f == iHospitalName then vCityGeneral
  else if f == iRegion then vNorthDistrict
  else if f == iCurrentStaffing then vStaffingLevels
  else if f == iAdministratorName then vDrRao
  else emptyStr

/-- The scenario inputs with `region` omitted. -/
def cityGeneralNoRegion : String → String := fun f =>
  if f == iRegion then emptyStr else cityGeneralInputs f

/-! ## `run_with_retry` (crew.py lines 405-448)

The loop body either returns the kickoff result or raises an exception
whose message string is then classified:
  - a message containing `"None or empty"` is treated as retriable and
    the loop sleeps `retry_delay` then multiplies it by 1.5, unless the
    attempt was the last, in which case a failure message carrying the
    underlying error is raised;
  - a message is tested for the mixed-case literal `"API key"` inside
    its lowering — a test that can never succeed — or for
    `"authentication"`; on a match it is raised immediately as an
    API-key error;
  - a message whose lowering contains `"model"` and (`"not found"` or
    `"invalid"`) is raised immediately as a model-configuration error;
  - any other message is re-raised immediately unchanged.
Each attempt's result is supplied as one element of an outcome list. -/

def patNoneOrEmpty : String := "None or empty"

/-- The mixed-case literal of crew.py line 440.  The code searches it
inside `error_msg.lower()`, so this test can never succeed. -/
def patApiKey : String := "API key"

def patAuth : String := "authentication"
def patModel : String := "model"
def patNotFound : String := "not found"
def patInvalid : String := "invalid"

/-- The `"None or empty" in error_msg` test of crew.py line 431. -/
def isTransientMsg (m : String) : Bool :=
  containsStr m patNoneOrEmpty

/-- The `"API key" in error_msg.lower() or "authentication" in
error_msg.lower()` test of crew.py line 440.  The first disjunct
searches a mixed-case pattern in an all-lowercase string and is dead
code (proved below); only the `"authentication"` disjunct can fire. -/
def isAuthMsg (m : String) : Bool :=
  containsLower m patApiKey || containsLower m patAuth

/-- The `"model" in error_msg.lower() and ("not found" in ... or
"invalid" in ...)` test of crew.py line 443. -/
def isModelMsg (m : String) : Bool :=
  containsLower m patModel && (containsLower m patNotFound || containsLower m patInvalid)

def msgFailedAfter : String := "Failed after "
def msgAttempts : String := " attempts: "
def msgVerifyKey : String := ". Please verify your API key and model configuration."
def msgApiKeyErr : String := "API key error: "
def msgVerifyEnvKey : String := ". Please verify your GEMINI_API_KEY in the .env file."
def msgInvalidModel : String := "Invalid model configuration: "
def msgCheckModel : String := ". Please check the MODEL value in your .env file."
def msgNoAttempts : String := "no attempts were made"

/-- The message of crew.py line 439, raised when retries are exhausted;
it interpolates `max_retries` and the last underlying error message. -/
def exhaustMsg (maxRetries : Nat) (m : String) : String :=
  msgFailedAfter ++ toString maxRetries ++ msgAttempts ++ m ++ msgVerifyKey

/-- The message of crew.py line 442. -/
def authRaiseMsg (m : String) : String :=
  msgApiKeyErr ++ m ++ msgVerifyEnvKey

/-- The message of crew.py line 445. -/
def modelRaiseMsg (m : String) : String :=
  msgInvalidModel ++ m ++ msgCheckModel

/-- What one attempt of the loop body produces: the kickoff result, or
a raised exception's message. -/
inductive Outcome where
  | ok (v : String)
  | err (m : String)
deriving DecidableEq, Repr

/-- How `run_with_retry` classifies the error it finally raises. -/
inductive ErrKind where
  | transientExhausted
  | authError
  | modelConfigError
  | other
deriving DecidableEq, Repr

/-- Result of `run_with_retry`: the outcome, the number of attempts
made, and the sequence of delays slept between attempts. -/
structure RetryRes where
  result : Except (ErrKind × String) String
  attempts : Nat
  delays : List ℚ
deriving Repr

/-- The geometric factor of `retry_delay *= 1.5` (crew.py line 436). -/
def backoffFactor : ℚ := 3 / 2

/-- One pass of the `for attempt in range(max_retries)` loop of
`run_with_retry`: `total` is `max_retries` (for the interpolated
exhaustion message), `remaining` the attempts left, `d` the current
`retry_delay`. -/
def runRetryAux (total : Nat) :
    List Outcome → Nat → ℚ → RetryRes
  | _, 0, _ => ⟨.error (.other, msgNoAttempts), 0, []⟩
  | [], _ + 1, _ => ⟨.error (.other, msgNoAttempts), 0, []⟩
  | o :: rest, r + 1, d =>
    match o with
    | .ok v => ⟨.ok v, 1, []⟩
    | .err m =>
      if isTransientMsg m then
        if r == 0 then
          ⟨.error (.transientExhausted, exhaustMsg total m), 1, []⟩
        else
          let res := runRetryAux total rest r (d * backoffFactor)
          ⟨res.result, res.attempts + 1, d :: res.delays⟩
      else if isAuthMsg m then ⟨.error (.authError, authRaiseMsg m), 1, []⟩
      else if isModelMsg m then ⟨.error (.modelConfigError, modelRaiseMsg m), 1, []⟩
      else ⟨.error (.other, m), 1, []⟩

/-- Embeds `run_with_retry(crew_instance, inputs, max_retries,
retry_delay)` with the per-attempt results of the loop body supplied as
`outcomes`. -/
def runWithRetry (outcomes : List Outcome) (maxRetries : Nat) (retryDelay : ℚ) :
    RetryRes :=
  runRetryAux maxRetries outcomes maxRetries retryDelay

/-! ## Module-level credential check (crew.py lines 27-29)

`gemini_api_key = os.getenv("GEMINI_API_KEY")` followed by
`if not gemini_api_key: raise ValueError(...)` runs at import time,
before any `LLM`, agent or task object can be created. -/

def envGeminiKey : String := "GEMINI_API_KEY"
def msgKeyNotSet : String :=
  "GEMINI_API_KEY environment variable is not set. Please add it to your .env file."

/-- Embeds the module-level key check: the environment maps a variable
name to `none` (unset) or its value; an unset or empty key fails at
module construction time. -/
def moduleInit (env : String → Option String) : Except String String :=
  match env envGeminiKey with
  | none => .error msgKeyNotSet
  | some k => if k == emptyStr then .error msgKeyNotSet else .ok k

/-! ## Credential/Model Rotator (spec sections 4.1 and 8)

Modelled from the spec: the repository holds a single module-level
credential, so the rotator component the spec describes does not exist
under src/; the definitions below follow the spec's words.  A rotator
holds a read-only pool of (credential, model-name) candidates and a
cursor; `next` returns the entry at the cursor modulo the pool size and
advances the cursor by one; constructing from an empty pool fails with
a configuration error at construction time. -/

inductive ConfigErr where
  | configurationError
deriving DecidableEq, Repr

/-- Modelled from the spec: the rotator state (section 4.1); the pool
is non-empty by construction. -/
structure Rotator where
  pool : List (String × String)
  cursor : Nat
  pool_ok : pool ≠ []

def dummyCred : String × String := (emptyStr, emptyStr)

/-- Modelled from the spec: rotator construction fails with
`ConfigurationError` on an empty pool, immediately and not at first
use (section 4.1). -/
def mkRotator (pool : List (String × String)) : Except ConfigErr Rotator :=
  if h : pool = [] then .error .configurationError
  else .ok ⟨pool, 0, h⟩

/-- Modelled from the spec: `next() -> (credential, model_name)`,
returning the pool entry at the cursor modulo N and advancing the
cursor by one (section 4.1). -/
def Rotator.next (r : Rotator) : (String × String) × Rotator :=
  (r.pool.getD (r.cursor % r.pool.length) dummyCred,
   { r with cursor := r.cursor + 1 })

/-- The outputs of `n` consecutive `next` calls, in order, with the
rotator state after them. -/
def Rotator.takeNext (r : Rotator) : Nat → List (String × String) × Rotator
  | 0 => ([], r)
  | n + 1 =>
    let (c, r') := r.next
    let (cs, r'') := r'.takeNext n
    (c :: cs, r'')

/-! ## Agent construction fallback (crew.py lines 108-170)

`_create_agent_with_fallback` first tries the external declarative
configuration (`self.agents_config[config_key]`); on any exception —
source unavailable, key missing, content malformed — it rebuilds the
agent from the embedded `fallback_configs` table, with the
`central_orchestrator` entry as last resort for unknown keys. -/

/-- Identity of an agent: role, goal and backstory. -/
structure AgentConfig where
  role : String
  goal : String
  backstory : String
deriving DecidableEq, Repr

def rFestivalKey : String := "festival_event_forecaster"
def rPollutionKey : String := "pollution_climate_health_risk"
def rEpidemicKey : String := "epidemic_surveillance"
def rStaffingKey : String := "staffing_optimizer"
def rSupplyKey : String := "supply_chain_inventory"
def rAdvisoryKey : String := "patient_advisory_communication"
def rOrchestratorKey : String := "central_orchestrator"

def rFestivalRole : String := "Festival and Event Surge Forecaster"
def rFestivalGoal : String := "Predict patient surges during festivals and major events"
def rFestivalBack : String :=
  "Expert in analyzing historical data and event patterns to forecast healthcare demand."
def rPollutionRole : String := "Environmental Health Risk Analyst"
def rPollutionGoal : String := "Assess pollution and climate-related health risks"
def rPollutionBack : String :=
  "Specialist in environmental health impact assessment and air quality analysis."
def rEpidemicRole : String := "Epidemic Surveillance Specialist"
def rEpidemicGoal : String := "Monitor and predict epidemic outbreaks"
def rEpidemicBack : String :=
  "Public health expert focused on disease surveillance and outbreak prediction."
def rStaffingRole : String := "Hospital Staffing Optimizer"
def rStaffingGoal : String := "Optimize staff allocation based on predicted surges"
def rStaffingBack : String :=
  "Healthcare operations expert specializing in staff scheduling and resource allocation."
def rSupplyRole : String := "Medical Supply Chain Manager"
def rSupplyGoal : String := "Ensure adequate medical supplies and equipment"
def rSupplyBack : String :=
  "Supply chain expert focused on medical inventory management and procurement."
def rAdvisoryRole : String := "Patient Communication Specialist"
def rAdvisoryGoal : String := "Create effective patient advisories and communications"
def rAdvisoryBack : String :=
  "Healthcare communication expert specializing in patient education and public health messaging."
def rOrchestratorRole : String := "Hospital Preparedness Coordinator"
def rOrchestratorGoal : String := "Coordinate all aspects of hospital surge preparedness"
def rOrchestratorBack : String :=
  "Senior healthcare administrator with expertise in emergency preparedness and crisis management."

/-- The embedded `fallback_configs` table of crew.py lines 124-160. -/
def fallbackConfigs : List (String × AgentConfig) :=
  [ (rFestivalKey, ⟨rFestivalRole, rFestivalGoal, rFestivalBack⟩),
    (rPollutionKey, ⟨rPollutionRole, rPollutionGoal, rPollutionBack⟩),
    (rEpidemicKey, ⟨rEpidemicRole, rEpidemicGoal, rEpidemicBack⟩),
    (rStaffingKey, ⟨rStaffingRole, rStaffingGoal, rStaffingBack⟩),
    (rSupplyKey, ⟨rSupplyRole, rSupplyGoal, rSupplyBack⟩),
    (rAdvisoryKey, ⟨rAdvisoryRole, rAdvisoryGoal, rAdvisoryBack⟩),
    (rOrchestratorKey, ⟨rOrchestratorRole, rOrchestratorGoal, rOrchestratorBack⟩) ]

/-- The `central_orchestrator` last-resort entry used by
`fallback_configs.get(config_key, fallback_configs['central_orchestrator'])`. -/
def orchestratorDefault : AgentConfig :=
  ⟨rOrchestratorRole, rOrchestratorGoal, rOrchestratorBack⟩

/-- The fallback branch of `_create_agent_with_fallback`: look the key
up in the embedded table, defaulting to the orchestrator entry. -/
def embeddedFallback (key : String) : AgentConfig :=
  ((fallbackConfigs.find? (fun p => p.1 == key)).map (fun p => p.2)).getD
    orchestratorDefault

/-- Embeds `_create_agent_with_fallback`: the external source either
yields a configuration for the key (`some c`) or fails in any way
(`none`, covering unavailable, partially present and malformed); on
failure the embedded table is used, so construction is total. -/
def resolveAgent (ext : String → Option AgentConfig) (key : String) : AgentConfig :=
  match ext key with
  | some c => c
  | none => embeddedFallback key

/-- An agent configuration is usable when none of its identity fields
is empty. -/
def usableAgent (c : AgentConfig) : Bool :=
  !(c.role == emptyStr) && !(c.goal == emptyStr) && !(c.backstory == emptyStr)

/-! ## Auxiliary predicates and concrete test data -/

/-- Did an `Except` computation succeed? -/
def okB {ε α : Type} : Except ε α → Bool
  | .ok _ => true
  | .error _ => false

/-- A declared default is non-trivial when it is not zero, not the
empty string and not the empty list. -/
def nontrivialDefault : JVal → Bool
  | .str s => !(s == emptyStr)
  | .int n => !(n == 0)
  | .num q => !(q == 0)
  | .strList xs => !xs.isEmpty

/-- A concrete raw record that supplies `report_type` but omits every
other `SurgeReport` field, including `region`. -/
def surgeRecMissingRegion : List (String × JVal) :=
  [(fReportType, JVal.str dGeneralForecast)]

/-- A concrete rate-limit failure message: it contains neither
`"None or empty"` nor any of the permanent-failure markers. -/
def rateLimitMsg : String := "Rate limit exceeded"

/-- A per-task outcome function on which every task succeeds. -/
def okOutcome : String → Except String JVal :=
  fun _ => .ok (JVal.str dUnknown)

/-- A concrete empty-response failure message matching the
`"None or empty"` classifier. -/
def emptyRespMsg : String := "Invalid response from LLM call - None or empty."

/-- A concrete API-key failure message.  The code's mixed-case API-key
check cannot match it, and it does not contain the word
authentication, so the program re-raises it unclassified. -/
def authFailMsg : String := "API key not valid. Please pass a valid API key."

/-- A concrete failure message containing the word authentication —
the only way the auth branch of crew.py line 440 can fire. -/
def authnFailMsg : String := "Request failed: authentication token rejected."

/-- Credential and model names for round-robin witnesses. -/
def credA : String := "key-a"
def credB : String := "key-b"
def modelFlash : String := "gemini/gemini-1.5-flash"
def modelPro : String := "gemini/gemini-1.5-pro"

/-- A two-entry credential pool for round-robin witnesses. -/
def twoCredPool : List (String × String) :=
  [(credA, modelFlash), (credB, modelPro)]

/-- A field name declared by none of the four report schemas. -/
def extraFieldName : String := "unexpected_field"

/-! # Theorems

General lemmas first, then one theorem per claim of the specification,
each preceded by a doc comment naming the claim. -/

/-! ## Substring lemmas -/

theorem hasPre_append_right (xs ys : List Char) : hasPre xs (xs ++ ys) = true := by
  induction xs with
  | nil => rfl
  | cons a as ih => simp [hasPre, ih]

theorem hasSub_of_hasPre (pat hay : List Char) (h : hasPre pat hay = true) :
    hasSub pat hay = true := by
  cases hay with
  | nil =>
    cases pat with
    | nil => rfl
    | cons a as => simp [hasPre] at h
  | cons c rest => simp [hasSub, h]

theorem hasSub_cons_of_hasSub (pat : List Char) (c : Char) (hay : List Char)
    (h : hasSub pat hay = true) : hasSub pat (c :: hay) = true := by
  simp [hasSub, h]

theorem hasSub_sandwich (pre pat suf : List Char) :
    hasSub pat (pre ++ (pat ++ suf)) = true := by
  induction pre with
  | nil => exact hasSub_of_hasPre _ _ (hasPre_append_right pat suf)
  | cons c cs ih => exact hasSub_cons_of_hasSub _ _ _ ih

theorem toList_append (a b : String) : (a ++ b).toList = a.toList ++ b.toList :=
  String.data_append a b

theorem containsStr_sandwich (pre m suf : String) :
    containsStr (pre ++ (m ++ suf)) m = true := by
  unfold containsStr
  rw [toList_append, toList_append]
  exact hasSub_sandwich pre.toList m.toList suf.toList

/-- The exhaustion message of crew.py line 439 carries the underlying
error message as a substring. -/
theorem containsStr_exhaustMsg (n : Nat) (m : String) :
    containsStr (exhaustMsg n m) m = true := by
  have h : exhaustMsg n m
      = (msgFailedAfter ++ toString n ++ msgAttempts) ++ (m ++ msgVerifyKey) := by
    simp [exhaustMsg, String.append_assoc]
  rw [h]
  exact containsStr_sandwich _ _ _

/-! ## Validator lemmas -/

/-- A record containing an undeclared field is rejected. -/
theorem validateRecord_extra_rejected (schema : List FieldSpec)
    (rec : List (String × JVal)) (p : String × JVal)
    (hmem : p ∈ rec) (hdecl : declaredIn schema p.1 = false) :
    validateRecord schema rec = .error extraForbiddenErr := by
  unfold validateRecord
  have hany : rec.any (fun q => !(declaredIn schema q.1)) = true :=
    List.any_eq_true.mpr ⟨p, hmem, by simp [hdecl]⟩
  simp [hany]

/-- A well-formed record validates successfully, each absent field
filled with its declared default. -/
theorem validateRecord_wf (schema : List FieldSpec) (rec : List (String × JVal))
    (hwf : wellFormed schema rec = true) :
    validateRecord schema rec =
      .ok (schema.map (fun f => (f.name, (lookupField rec f.name).getD f.default))) := by
  unfold wellFormed at hwf
  rw [List.all_eq_true] at hwf
  unfold validateRecord
  have hany : rec.any (fun q => !(declaredIn schema q.1)) = false := by
    rw [List.any_eq_false]
    intro p hp
    have hq := hwf p hp
    simp only [Bool.and_eq_true] at hq
    simp [hq.1]
  rw [hany]
  have hall : (schema.all (fun f =>
      match lookupField rec f.name with
      | some v => typeOk f.ftype v
      | none => true)) = true := by
    rw [List.all_eq_true]
    intro f hf
    cases hlk : lookupField rec f.name with
    | none => simp
    | some v =>
      simp only
      unfold lookupField at hlk
      cases hfind : rec.find? (fun p => p.1 == f.name) with
      | none => rw [hfind] at hlk; simp at hlk
      | some q =>
        rw [hfind] at hlk
        simp only [Option.map_some'] at hlk
        have hv : v = q.2 := by cases hlk; rfl
        subst hv
        have hqmem : q ∈ rec := List.mem_of_find?_eq_some hfind
        have hqpred := List.find?_some hfind
        simp only [beq_iff_eq] at hqpred
        have hq1 : q.1 = f.name := hqpred
        have hq := hwf q hqmem
        simp only [Bool.and_eq_true, List.all_eq_true] at hq
        have hfor := hq.2 f hf
        have hbeq : (f.name == q.1) = true := by simp [hq1]
        simp only [hbeq, Bool.not_true, Bool.false_or] at hfor
        exact hfor
  simp [hall]

/-- A well-formed record never fails validation: in particular a record
is never rejected for missing fields. -/
theorem validateRecord_wf_ok (schema : List FieldSpec) (rec : List (String × JVal))
    (hwf : wellFormed schema rec = true) :
    okB (validateRecord schema rec) = true := by
  rw [validateRecord_wf schema rec hwf]
  rfl

/-- A staffing plan list containing one element with an undeclared
field fails as a whole. -/
theorem validateStaffingPlanList_extra_rejected
    (elems : List (List (String × JVal))) (elem : List (String × JVal))
    (p : String × JVal) (helem : elem ∈ elems) (hmem : p ∈ elem)
    (hdecl : declaredIn staffingPlanSchema p.1 = false) :
    okB (validateStaffingPlanList elems) = false := by
  induction elems with
  | nil => cases helem
  | cons e rest ih =>
    cases List.mem_cons.mp helem with
    | inl heq =>
      have herr := validateRecord_extra_rejected staffingPlanSchema elem p hmem hdecl
      unfold validateStaffingPlanList
      rw [← heq, herr]
      simp [okB]
    | inr hrest =>
      unfold validateStaffingPlanList
      cases hv : validateRecord staffingPlanSchema e with
      | error e' => simp [okB]
      | ok v =>
        have := ih hrest
        cases hrec : validateStaffingPlanList rest with
        | error e' => simp [okB]
        | ok vs => rw [hrec] at this; simp [okB] at this

/-! ## Sequential executor lemmas -/

/-- When every task in the list succeeds, the sequential executor
produces one log entry per task, in declared order, each entry being
that task's output. -/
theorem runTasks_all_ok (outcome : String → Except String JVal) :
    ∀ (ts : List TaskDef) (acc : List (String × JVal)),
      (∀ t ∈ ts, okB (outcome t.id) = true) →
      ∃ log, runTasks outcome ts acc = .ok (acc.reverse ++ log)
        ∧ log.map Prod.fst = ts.map TaskDef.id
        ∧ ∀ p ∈ log, outcome p.1 = .ok p.2 := by
  intro ts
  induction ts with
  | nil =>
    intro acc _
    exact ⟨[], by simp [runTasks], by simp, by simp⟩
  | cons t rest ih =>
    intro acc hok
    have hokt : okB (outcome t.id) = true := hok t (List.mem_cons_self t rest)
    cases hout : outcome t.id with
    | error e => rw [hout] at hokt; simp [okB] at hokt
    | ok r =>
      have hrest : ∀ u ∈ rest, okB (outcome u.id) = true :=
        fun u hu => hok u (List.mem_cons_of_mem t hu)
      obtain ⟨log', hrun, hids, hvals⟩ := ih ((t.id, r) :: acc) hrest
      refine ⟨(t.id, r) :: log', ?_, ?_, ?_⟩
      · rw [runTasks, hout]
        show runTasks outcome rest ((t.id, r) :: acc) = _
        rw [hrun]
        simp
      · simp [hids]
      · intro p hp
        cases List.mem_cons.mp hp with
        | inl heq => rw [heq]; exact hout
        | inr hmem => exact hvals p hmem

/-! ## Retry-loop lemmas -/

/-- Splitting the geometric delay sequence at its head. -/
theorem geom_delays (d : ℚ) (n : Nat) :
    (List.range (n + 1)).map (fun i => d * backoffFactor ^ i)
      = d :: (List.range n).map (fun i => d * backoffFactor * backoffFactor ^ i) := by
  rw [List.range_succ_eq_map, List.map_cons, List.map_map]
  have hfun : ((fun i => d * backoffFactor ^ i) ∘ Nat.succ)
      = fun i => d * backoffFactor * backoffFactor ^ i := by
    funext i
    simp only [Function.comp_apply, pow_succ]
    ring
  rw [hfun]
  simp

/-- A run whose first `k` attempts fail transiently and whose next
attempt succeeds makes `k + 1` attempts and sleeps a geometrically
growing delay sequence with factor 3/2. -/
theorem runRetryAux_transient_then_ok (total : Nat) (v : String) :
    ∀ (msgs : List String) (rest : List Outcome) (r : Nat) (d : ℚ),
      (∀ m ∈ msgs, isTransientMsg m = true) →
      msgs.length < r →
      runRetryAux total (msgs.map Outcome.err ++ (Outcome.ok v :: rest)) r d =
        ⟨.ok v, msgs.length + 1,
         (List.range msgs.length).map (fun i => d * backoffFactor ^ i)⟩ := by
  intro msgs
  induction msgs with
  | nil =>
    intro rest r d _ hr
    cases r with
    | zero => exact absurd hr (by omega)
    | succ r' => simp [runRetryAux]
  | cons m ms ih =>
    intro rest r d htr hr
    cases r with
    | zero => exact absurd hr (by omega)
    | succ r' =>
      have hm : isTransientMsg m = true := htr m (List.mem_cons_self m ms)
      have hms : ∀ x ∈ ms, isTransientMsg x = true :=
        fun x hx => htr x (List.mem_cons_of_mem m hx)
      have hlen : ms.length < r' := by
        have := hr
        simp only [List.length_cons] at this
        omega
      cases r' with
      | zero => exact absurd hlen (by omega)
      | succ r'' =>
        have hstep := ih rest (r'' + 1) (d * backoffFactor) hms hlen
        show runRetryAux total
            (Outcome.err m :: (ms.map Outcome.err ++ (Outcome.ok v :: rest)))
            (r'' + 1 + 1) d = _
        rw [runRetryAux, hm]
        simp only [if_true]
        rw [hstep]
        simp only [List.length_cons]
        rw [geom_delays]
        simp

/-- A first attempt that fails non-transiently stops the loop at once,
classified by the message content. -/
theorem runRetryAux_permanent_immediate (total : Nat) (m : String)
    (rest : List Outcome) (r : Nat) (d : ℚ) (htr : isTransientMsg m = false) :
    runRetryAux total (Outcome.err m :: rest) (r + 1) d =
      if isAuthMsg m then ⟨.error (.authError, authRaiseMsg m), 1, []⟩
      else if isModelMsg m then ⟨.error (.modelConfigError, modelRaiseMsg m), 1, []⟩
      else ⟨.error (.other, m), 1, []⟩ := by
  rw [runRetryAux, htr]
  simp

/-- When every one of `max_retries` attempts fails transiently, the
loop makes exactly `max_retries` attempts — whatever further outcomes
would have been — and raises the exhaustion error carrying the last
underlying message. -/
theorem runRetryAux_exhaust (total : Nat) :
    ∀ (msgs : List String) (rest : List Outcome) (d : ℚ),
      msgs ≠ [] →
      (∀ m ∈ msgs, isTransientMsg m = true) →
      (runRetryAux total (msgs.map Outcome.err ++ rest) msgs.length d).result
          = .error (.transientExhausted, exhaustMsg total (msgs.getLastD emptyStr))
        ∧ (runRetryAux total (msgs.map Outcome.err ++ rest) msgs.length d).attempts
          = msgs.length := by
  intro msgs
  induction msgs with
  | nil => intro rest d hne _; exact absurd rfl hne
  | cons m ms ih =>
    intro rest d _ htr
    have hm : isTransientMsg m = true := htr m (List.mem_cons_self m ms)
    cases ms with
    | nil =>
      constructor
      · show (runRetryAux total (Outcome.err m :: rest) 1 d).result = _
        rw [runRetryAux, hm]
        simp [List.getLastD]
      · show (runRetryAux total (Outcome.err m :: rest) 1 d).attempts = 1
        rw [runRetryAux, hm]
        simp
    | cons m2 ms' =>
      have hms : ∀ x ∈ m2 :: ms', isTransientMsg x = true :=
        fun x hx => htr x (List.mem_cons_of_mem m hx)
      obtain ⟨ihr, iha⟩ := ih rest (d * backoffFactor) (by simp) hms
      have hlast : (m :: m2 :: ms').getLastD emptyStr = (m2 :: ms').getLastD emptyStr := by
        rw [List.getLastD_cons, List.getLastD_cons, List.getLastD_cons]
      constructor
      · show (runRetryAux total
            (Outcome.err m :: ((m2 :: ms').map Outcome.err ++ rest))
            ((m2 :: ms').length + 1) d).result = _
        rw [runRetryAux, hm]
        simp only [List.length_cons, if_true]
        rw [hlast]
        simpa using ihr
      · show (runRetryAux total
            (Outcome.err m :: ((m2 :: ms').map Outcome.err ++ rest))
            ((m2 :: ms').length + 1) d).attempts = _
        rw [runRetryAux, hm]
        simp only [List.length_cons, if_true]
        simpa using iha

/-! ## Rotator lemmas -/

/-- The outputs of `n` consecutive `next` calls read the pool at the
successive cursor positions modulo the pool size, and the cursor
advances by one per call. -/
theorem takeNext_spec : ∀ (n : Nat) (r : Rotator),
    (r.takeNext n).1 = (List.range n).map
        (fun i => r.pool.getD ((r.cursor + i) % r.pool.length) dummyCred)
      ∧ (r.takeNext n).2.pool = r.pool
      ∧ (r.takeNext n).2.cursor = r.cursor + n := by
  intro n
  induction n with
  | zero =>
    intro r
    exact ⟨by simp [Rotator.takeNext], rfl, by simp [Rotator.takeNext]⟩
  | succ n ih =>
    intro r
    obtain ⟨ho, hp, hc⟩ := ih { r with cursor := r.cursor + 1 }
    refine ⟨?_, ?_, ?_⟩
    · show r.pool.getD (r.cursor % r.pool.length) dummyCred ::
          (Rotator.takeNext { r with cursor := r.cursor + 1 } n).1 = _
      rw [ho]
      rw [List.range_succ_eq_map, List.map_cons, List.map_map]
      have hfun : ((fun i => r.pool.getD ((r.cursor + i) % r.pool.length) dummyCred)
            ∘ Nat.succ)
          = fun i => r.pool.getD ((r.cursor + 1 + i) % r.pool.length) dummyCred := by
        funext i
        have harith : r.cursor + Nat.succ i = r.cursor + 1 + i := by omega
        simp only [Function.comp_apply, harith]
      rw [hfun]
      simp
    · show (Rotator.takeNext { r with cursor := r.cursor + 1 } n).2.pool = r.pool
      rw [hp]
    · show (Rotator.takeNext { r with cursor := r.cursor + 1 } n).2.cursor = r.cursor + (n + 1)
      rw [hc]
      show r.cursor + 1 + n = r.cursor + (n + 1)
      omega

/-- Reading a list at positions `0, …, length − 1` recovers the list. -/
theorem range_map_getD {α : Type} (l : List α) (dflt : α) :
    (List.range l.length).map (fun i => l.getD i dflt) = l := by
  induction l with
  | nil => simp
  | cons a t ih =>
    rw [List.length_cons, List.range_succ_eq_map, List.map_cons, List.map_map]
    have hfun : ((fun i => (a :: t).getD i dflt) ∘ Nat.succ)
        = fun i => t.getD i dflt := by
      funext i
      simp
    rw [hfun, ih]
    simp

/-! ## The dead API-key disjunct of the auth classifier -/

/-- `Char.toLower` never produces the uppercase letter A: uppercase
letters are shifted to lowercase and any other character is returned
unchanged, but an unchanged character cannot be uppercase A. -/
theorem char_toLower_ne_A (c : Char) : Char.toLower c ≠ 'A' := by
  simp only [Char.toLower]
  split
  next h =>
    intro heq
    have hv : (Char.toNat c + 32).isValidChar := Or.inl (by omega)
    have hval : (Char.ofNat (Char.toNat c + 32)).toNat = Char.toNat c + 32 := by
      unfold Char.ofNat
      rw [dif_pos hv]
      rfl
    rw [heq] at hval
    have h65 : ('A' : Char).toNat = 65 := rfl
    rw [h65] at hval
    omega
  next h =>
    intro heq
    subst heq
    exact h ⟨by decide, by decide⟩

/-- The characterwise lowering of a string never contains uppercase A. -/
theorem lowerChars_no_A (s : String) : 'A' ∉ lowerChars s := by
  unfold lowerChars
  intro hmem
  obtain ⟨x, _, hx⟩ := List.mem_map.mp hmem
  exact char_toLower_ne_A x hx

/-- A pattern cannot occur inside a list that does not contain the
pattern's first character. -/
theorem hasSub_head_not_mem (c : Char) (pat hay : List Char) (h : c ∉ hay) :
    hasSub (c :: pat) hay = false := by
  induction hay with
  | nil => rfl
  | cons b rest ih =>
    have hne : (c == b) = false := by
      have hcb : c ≠ b := fun heq => h (by rw [heq]; exact List.mem_cons_self b rest)
      exact beq_eq_false_iff_ne.mpr hcb
    have hrest : c ∉ rest := fun hr => h (List.mem_cons_of_mem b hr)
    simp [hasSub, hasPre, hne, ih hrest]

/-- The API-key test of crew.py line 440 is dead code: it searches the
mixed-case literal inside the lowercased message, whose characters
never include the uppercase A the pattern starts with. -/
theorem apiKey_check_dead (m : String) : containsLower m patApiKey = false := by
  unfold containsLower
  have hpat : patApiKey.toList
      = 'A' :: ('P' :: ('I' :: (' ' :: ('k' :: ('e' :: ('y' :: [])))))) := rfl
  rw [hpat]
  exact hasSub_head_not_mem ('A') _ (lowerChars m) (lowerChars_no_A m)

/-! ## Claim theorems -/

/-- C1: with the four mandatory inputs present and all seven tasks
succeeding, the run produces exactly seven report records, one per task
in the declared order (festival, pollution, epidemic, staffing, supply,
advisory, orchestration), each record being its task's own output in
sequence, and the last (orchestration) task's output schema is
SurgeReport. -/
theorem c1_seven_reports_in_order (inputs : String → String)
    (outcome : String → Except String JVal)
    (hin : missingFields inputs = [])
    (hok : ∀ t ∈ crewTasks, okB (outcome t.id) = true) :
    ∃ log, (runController inputs outcome).result = .ok log
      ∧ (runController inputs outcome).agentConstructions = 7
      ∧ log.length = 7
      ∧ log.map Prod.fst
          = [tFestival, tPollution, tEpidemic, tStaffing, tSupply, tAdvisory, tOrchestration]
      ∧ (∀ p ∈ log, outcome p.1 = .ok p.2)
      ∧ crewTasks.getLast? = some ⟨tOrchestration, SchemaKind.surgeReport⟩ := by
  obtain ⟨log, hrun, hids, hvals⟩ := runTasks_all_ok outcome crewTasks [] hok
  refine ⟨log, ?_, ?_, ?_, ?_, hvals, by rfl⟩
  · simp only [runController, hin]
    rw [hrun]
    simp [Except.mapError]
  · simp [runController, hin]
    rfl
  · have h7 : (crewTasks.map TaskDef.id).length = 7 := by rfl
    calc log.length = (log.map Prod.fst).length := (List.length_map log Prod.fst).symm
    _ = 7 := by rw [hids]; rfl
  · rw [hids]; rfl

/-- C1 witness: the spec's City General inputs with an outcome on which
every task succeeds. -/
theorem c1_seven_reports_in_order_witness :
    missingFields cityGeneralInputs = []
  ∧ (∀ t ∈ crewTasks, okB (okOutcome t.id) = true)
  ∧ ∃ log, (runController cityGeneralInputs okOutcome).result = .ok log
      ∧ (runController cityGeneralInputs okOutcome).agentConstructions = 7
      ∧ log.length = 7
      ∧ log.map Prod.fst
          = [tFestival, tPollution, tEpidemic, tStaffing, tSupply, tAdvisory, tOrchestration]
      ∧ (∀ p ∈ log, okOutcome p.1 = .ok p.2)
      ∧ crewTasks.getLast? = some ⟨tOrchestration, SchemaKind.surgeReport⟩ :=
  ⟨by decide, by decide,
   c1_seven_reports_in_order cityGeneralInputs okOutcome (by decide) (by decide)⟩

/-- C2: an input map with any of the four mandatory fields missing
fails with the full batch of missing fields listed at once, with zero
agent constructions; the membership of the reported list is exactly
the set of empty mandatory fields, and the spec's inputs with only
region omitted yield exactly the singleton list containing region. -/
theorem c2_missing_inputs_fail_fast (inputs : String → String)
    (outcome : String → Except String JVal)
    (h : missingFields inputs ≠ []) :
    (runController inputs outcome).result = .error (missingFields inputs)
  ∧ (runController inputs outcome).agentConstructions = 0
  ∧ (∀ f, f ∈ missingFields inputs ↔ (f ∈ requiredFields ∧ inputs f = emptyStr))
  ∧ missingFields cityGeneralNoRegion = [iRegion] := by
  have hie : (missingFields inputs).isEmpty = false := by
    cases hm : missingFields inputs with
    | nil => exact absurd hm h
    | cons a t => rfl
  refine ⟨?_, ?_, ?_, by decide⟩
  · simp [runController, hie]
  · simp [runController, hie]
  · intro f
    constructor
    · intro hf
      have hmf := List.mem_filter.mp hf
      exact ⟨hmf.1, beq_iff_eq.mp hmf.2⟩
    · intro hpair
      exact List.mem_filter.mpr ⟨hpair.1, by simp [hpair.2]⟩

/-- C2 witness: the City General inputs with region omitted. -/
theorem c2_missing_inputs_fail_fast_witness :
    missingFields cityGeneralNoRegion ≠ []
  ∧ ((runController cityGeneralNoRegion okOutcome).result
        = .error (missingFields cityGeneralNoRegion)
    ∧ (runController cityGeneralNoRegion okOutcome).agentConstructions = 0
    ∧ (∀ f, f ∈ missingFields cityGeneralNoRegion
          ↔ (f ∈ requiredFields ∧ cityGeneralNoRegion f = emptyStr))
    ∧ missingFields cityGeneralNoRegion = [iRegion]) :=
  ⟨by decide, c2_missing_inputs_fail_fast cityGeneralNoRegion okOutcome (by decide)⟩

/-- C3 counterexample: a SurgeReport record that omits the required
field region (and every other field except report_type) is not
rejected by the validator: the code defines no strict mode, so a
missing-field rejection never happens. -/
theorem c3_missing_field_not_rejected :
    okB (validateRecord surgeReportSchema surgeRecMissingRegion) = true
  ∧ lookupField surgeRecMissingRegion fRegion = none := by
  exact ⟨by decide, by rfl⟩

/-- C3 (amended): the validator has a single, lenient mode: for each of
the four schema variants a well-formed record missing any fields is not
rejected and each absent field is filled with its declared fixed
default; the declared defaults are the documented named values
(risk_level Medium, confidence_score 0.7, ...), none zero, empty or
None for the four record models, while StaffingPlanList's root
defaults to the empty list. -/
theorem c3_lenient_defaults_fill :
    (∀ schema, (schema = surgeReportSchema ∨ schema = staffingPlanSchema
        ∨ schema = inventoryRequirementSchema ∨ schema = patientAdvisorySchema) →
      ∀ rec, wellFormed schema rec = true →
        validateRecord schema rec =
          .ok (schema.map (fun f => (f.name, (lookupField rec f.name).getD f.default))))
  ∧ (∀ f ∈ surgeReportSchema ++ staffingPlanSchema
        ++ inventoryRequirementSchema ++ patientAdvisorySchema,
      nontrivialDefault f.default = true)
  ∧ (surgeReportSchema.find? (fun f => f.name == fRiskLevel)).map FieldSpec.default
      = some (.str dMedium)
  ∧ (surgeReportSchema.find? (fun f => f.name == fConfidenceScore)).map FieldSpec.default
      = some (.num ((7 : ℚ) / 10))
  ∧ staffingPlanListDefault = [] := by
  refine ⟨?_, ?_, by rfl, by rfl, rfl⟩
  · intro schema _ rec hwf
    exact validateRecord_wf schema rec hwf
  · intro f hf
    have hq : nontrivialDefault (JVal.num ((7 : ℚ) / 10)) = true := by
      have h0 : (7 : ℚ) / 10 ≠ 0 := by norm_num
      simp [nontrivialDefault, h0]
    simp only [List.mem_append] at hf
    rcases hf with ((hf | hf) | hf) | hf
    · simp only [surgeReportSchema] at hf
      fin_cases hf <;> first | exact hq | decide
    · simp only [staffingPlanSchema] at hf
      fin_cases hf <;> decide
    · simp only [inventoryRequirementSchema] at hf
      fin_cases hf <;> decide
    · simp only [patientAdvisorySchema] at hf
      fin_cases hf <;> decide

/-- C3 witness: a staffing plan record missing every field but
department is filled with the remaining defaults. -/
theorem c3_lenient_defaults_fill_witness :
    wellFormed staffingPlanSchema [(fDepartment, JVal.str dGeneralCat)] = true
  ∧ validateRecord staffingPlanSchema [(fDepartment, JVal.str dGeneralCat)]
      = .ok (staffingPlanSchema.map (fun f =>
          (f.name, (lookupField [(fDepartment, JVal.str dGeneralCat)] f.name).getD f.default))) :=
  ⟨by decide,
   c3_lenient_defaults_fill.1 staffingPlanSchema (Or.inr (Or.inl rfl))
     [(fDepartment, JVal.str dGeneralCat)] (by decide)⟩

/-- C4: a record containing an undeclared extra field is rejected by
every one of the four schema variants — the validator has a single
mode, so the rejection is unconditional — and a staffing plan list
containing such an element fails as a whole. -/
theorem c4_extra_field_rejected :
    (∀ schema, (schema = surgeReportSchema ∨ schema = staffingPlanSchema
        ∨ schema = inventoryRequirementSchema ∨ schema = patientAdvisorySchema) →
      ∀ rec p, p ∈ rec → declaredIn schema p.1 = false →
        validateRecord schema rec = .error extraForbiddenErr)
  ∧ (∀ elems elem p, elem ∈ elems → p ∈ elem →
      declaredIn staffingPlanSchema p.1 = false →
      okB (validateStaffingPlanList elems) = false) :=
  ⟨fun schema _ rec p hm hd => validateRecord_extra_rejected schema rec p hm hd,
   fun elems elem p he hm hd =>
     validateStaffingPlanList_extra_rejected elems elem p he hm hd⟩

/-- C4 witness: a record consisting of one undeclared field is rejected
by the SurgeReport schema. -/
theorem c4_extra_field_rejected_witness :
    (extraFieldName, JVal.str dUnknown) ∈ [(extraFieldName, JVal.str dUnknown)]
  ∧ declaredIn surgeReportSchema extraFieldName = false
  ∧ validateRecord surgeReportSchema [(extraFieldName, JVal.str dUnknown)]
      = .error extraForbiddenErr :=
  ⟨by decide, by decide,
   c4_extra_field_rejected.1 surgeReportSchema (Or.inl rfl)
     [(extraFieldName, JVal.str dUnknown)] (extraFieldName, JVal.str dUnknown)
     (by decide) (by decide)⟩

/-- C5 counterexample: a rate-limit failure is NOT retried by
`run_with_retry`: with max_retries 3 its message matches no classifier,
so the run makes a single attempt, sleeps no delay and re-raises the
error unclassified — contradicting the claim that rate-limit signals
are retried up to max_retries with backoff. -/
theorem c5_rate_limit_not_retried :
    runWithRetry [Outcome.err rateLimitMsg] 3 5
      = ⟨.error (.other, rateLimitMsg), 1, []⟩
  ∧ isTransientMsg rateLimitMsg = false
  ∧ isAuthMsg rateLimitMsg = false
  ∧ isModelMsg rateLimitMsg = false :=
  ⟨by rfl, by decide, by decide, by decide⟩

/-- C5 (amended): only failures whose message contains the string
None or empty are classified transient and retried — up to max_retries
attempts with the delay multiplied by 3/2 before each retry.  The
code's API-key check searches a mixed-case literal inside the
lowercased message and therefore never matches: a permanent failure is
raised immediately as an auth-classified error only when its message
contains the word authentication, as a model-config-classified error
when it contains model together with not-found or invalid, and is
otherwise — timeouts, rate limits, malformed requests, and API-key
messages without the word authentication — re-raised unclassified
after a single attempt; no permanent failure is ever retried. -/
theorem c5_retry_classification :
    (∀ (msgs : List String) (v : String) (rest : List Outcome) (mr : Nat) (d : ℚ),
      (∀ m ∈ msgs, isTransientMsg m = true) → msgs.length < mr →
      runWithRetry (msgs.map Outcome.err ++ (Outcome.ok v :: rest)) mr d =
        ⟨.ok v, msgs.length + 1,
         (List.range msgs.length).map (fun i => d * backoffFactor ^ i)⟩)
  ∧ (∀ m : String, containsLower m patApiKey = false)
  ∧ (∀ m : String, isAuthMsg m = containsLower m patAuth)
  ∧ (∀ (m : String) (rest : List Outcome) (mr : Nat) (d : ℚ),
      isTransientMsg m = false → isAuthMsg m = true →
      runWithRetry (Outcome.err m :: rest) (mr + 1) d
        = ⟨.error (.authError, authRaiseMsg m), 1, []⟩)
  ∧ (∀ (m : String) (rest : List Outcome) (mr : Nat) (d : ℚ),
      isTransientMsg m = false → isAuthMsg m = false → isModelMsg m = true →
      runWithRetry (Outcome.err m :: rest) (mr + 1) d
        = ⟨.error (.modelConfigError, modelRaiseMsg m), 1, []⟩)
  ∧ (∀ (m : String) (rest : List Outcome) (mr : Nat) (d : ℚ),
      isTransientMsg m = false → isAuthMsg m = false → isModelMsg m = false →
      runWithRetry (Outcome.err m :: rest) (mr + 1) d
        = ⟨.error (.other, m), 1, []⟩)
  ∧ runWithRetry [Outcome.err authFailMsg] 3 5
      = ⟨.error (.other, authFailMsg), 1, []⟩ := by
  refine ⟨?_, apiKey_check_dead, ?_, ?_, ?_, ?_, by rfl⟩
  · intro msgs v rest mr d htr hlt
    exact runRetryAux_transient_then_ok mr v msgs rest mr d htr hlt
  · intro m
    simp only [isAuthMsg, apiKey_check_dead m, Bool.false_or]
  · intro m rest mr d htr ha
    rw [runWithRetry, runRetryAux_permanent_immediate (mr + 1) m rest mr d htr, ha]
    simp
  · intro m rest mr d htr ha hm
    rw [runWithRetry, runRetryAux_permanent_immediate (mr + 1) m rest mr d htr, ha, hm]
    simp
  · intro m rest mr d htr ha hm
    rw [runWithRetry, runRetryAux_permanent_immediate (mr + 1) m rest mr d htr, ha, hm]
    simp

/-- C5 witness: one empty-response failure followed by a success makes
two attempts with one delay slept; a failure worded with
authentication stops classified as an auth error after one attempt. -/
theorem c5_retry_classification_witness :
    (∀ m ∈ [emptyRespMsg], isTransientMsg m = true)
  ∧ [emptyRespMsg].length < 3
  ∧ runWithRetry ([emptyRespMsg].map Outcome.err ++ (Outcome.ok dUnknown :: [])) 3 5
      = ⟨.ok dUnknown, [emptyRespMsg].length + 1,
         (List.range [emptyRespMsg].length).map (fun i => 5 * backoffFactor ^ i)⟩
  ∧ isTransientMsg authnFailMsg = false
  ∧ isAuthMsg authnFailMsg = true
  ∧ runWithRetry (Outcome.err authnFailMsg :: []) (2 + 1) 5
      = ⟨.error (.authError, authRaiseMsg authnFailMsg), 1, []⟩ :=
  ⟨by decide, by decide,
   c5_retry_classification.1 [emptyRespMsg] dUnknown [] 3 5 (by decide) (by decide),
   by decide, by decide,
   c5_retry_classification.2.2.2.1 authnFailMsg [] 2 5 (by decide) (by decide)⟩

/-- C6: when every one of max_retries attempts fails transiently, the
run raises the exhaustion error classified TransientExhausted, whose
message carries the last underlying error message as a substring, after
exactly max_retries attempts — no further attempt is made whatever
outcomes would have followed. -/
theorem c6_transient_exhaustion (msgs : List String) (rest : List Outcome) (d : ℚ)
    (hne : msgs ≠ []) (htr : ∀ m ∈ msgs, isTransientMsg m = true) :
    (runWithRetry (msgs.map Outcome.err ++ rest) msgs.length d).result
        = .error (.transientExhausted, exhaustMsg msgs.length (msgs.getLastD emptyStr))
  ∧ (runWithRetry (msgs.map Outcome.err ++ rest) msgs.length d).attempts = msgs.length
  ∧ containsStr (exhaustMsg msgs.length (msgs.getLastD emptyStr)) (msgs.getLastD emptyStr)
      = true := by
  obtain ⟨h1, h2⟩ := runRetryAux_exhaust msgs.length msgs rest d hne htr
  exact ⟨h1, h2, containsStr_exhaustMsg _ _⟩

/-- C6 witness: three transient empty-response failures with
max_retries 3 exhaust the retries even though a fourth attempt would
have succeeded. -/
theorem c6_transient_exhaustion_witness :
    [emptyRespMsg, emptyRespMsg, emptyRespMsg] ≠ ([] : List String)
  ∧ (∀ m ∈ [emptyRespMsg, emptyRespMsg, emptyRespMsg], isTransientMsg m = true)
  ∧ ((runWithRetry ([emptyRespMsg, emptyRespMsg, emptyRespMsg].map Outcome.err
        ++ [Outcome.ok dUnknown]) [emptyRespMsg, emptyRespMsg, emptyRespMsg].length 5).result
      = .error (.transientExhausted,
          exhaustMsg [emptyRespMsg, emptyRespMsg, emptyRespMsg].length
            ([emptyRespMsg, emptyRespMsg, emptyRespMsg].getLastD emptyStr))
    ∧ (runWithRetry ([emptyRespMsg, emptyRespMsg, emptyRespMsg].map Outcome.err
        ++ [Outcome.ok dUnknown]) [emptyRespMsg, emptyRespMsg, emptyRespMsg].length 5).attempts
      = [emptyRespMsg, emptyRespMsg, emptyRespMsg].length
    ∧ containsStr
        (exhaustMsg [emptyRespMsg, emptyRespMsg, emptyRespMsg].length
          ([emptyRespMsg, emptyRespMsg, emptyRespMsg].getLastD emptyStr))
        ([emptyRespMsg, emptyRespMsg, emptyRespMsg].getLastD emptyStr) = true) :=
  ⟨by decide, by decide,
   c6_transient_exhaustion [emptyRespMsg, emptyRespMsg, emptyRespMsg]
     [Outcome.ok dUnknown] 5 (by decide) (by decide)⟩

/-- C7: Modelled from the spec (section 4.1): for every non-empty pool
of size N, the first N next() calls return the pool entries exactly
once each, in pool order; the (N+1)-th call returns the same entry as
the first; and each call advances the cursor by exactly one. -/
theorem c7_rotator_round_robin (pool : List (String × String)) (h : pool ≠ []) :
    ∃ r, mkRotator pool = .ok r
      ∧ (r.takeNext pool.length).1 = pool
      ∧ (r.takeNext (pool.length + 1)).1 = pool ++ [pool.getD 0 dummyCred]
      ∧ ∀ n, (r.takeNext n).2.cursor = n := by
  refine ⟨⟨pool, 0, h⟩, ?_, ?_, ?_, ?_⟩
  · simp [mkRotator, h]
  · obtain ⟨ho, _, _⟩ := takeNext_spec pool.length ⟨pool, 0, h⟩
    rw [ho]
    have hcg : ∀ i ∈ List.range pool.length,
        pool.getD ((0 + i) % pool.length) dummyCred = pool.getD i dummyCred := by
      intro i hi
      have hilt : i < pool.length := List.mem_range.mp hi
      rw [Nat.zero_add, Nat.mod_eq_of_lt hilt]
    rw [List.map_congr_left hcg]
    exact range_map_getD pool dummyCred
  · obtain ⟨ho, _, _⟩ := takeNext_spec (pool.length + 1) ⟨pool, 0, h⟩
    rw [ho, List.range_succ, List.map_append]
    have hcg : ∀ i ∈ List.range pool.length,
        pool.getD ((0 + i) % pool.length) dummyCred = pool.getD i dummyCred := by
      intro i hi
      have hilt : i < pool.length := List.mem_range.mp hi
      rw [Nat.zero_add, Nat.mod_eq_of_lt hilt]
    rw [List.map_congr_left hcg, range_map_getD pool dummyCred]
    simp [Nat.mod_self]
  · intro n
    have hc := (takeNext_spec n ⟨pool, 0, h⟩).2.2
    simpa using hc

/-- C7 witness: a two-entry pool cycles a, b, a. -/
theorem c7_rotator_round_robin_witness :
    twoCredPool ≠ []
  ∧ ∃ r, mkRotator twoCredPool = .ok r
      ∧ (r.takeNext twoCredPool.length).1 = twoCredPool
      ∧ (r.takeNext (twoCredPool.length + 1)).1
          = twoCredPool ++ [twoCredPool.getD 0 dummyCred]
      ∧ ∀ n, (r.takeNext n).2.cursor = n :=
  ⟨by decide, c7_rotator_round_robin twoCredPool (by decide)⟩

/-- C8: an unset or empty credential fails at module construction time
(crew.py lines 27-29), and for the spec-modelled rotator an empty pool
fails with ConfigurationError at construction; the failure cannot be
deferred to a first next() call because no rotator value with an empty
pool exists at all. -/
theorem c8_empty_pool_fails_at_construction :
    moduleInit (fun _ => none) = .error msgKeyNotSet
  ∧ (∀ env, env envGeminiKey = some emptyStr → moduleInit env = .error msgKeyNotSet)
  ∧ mkRotator [] = .error .configurationError
  ∧ (∀ r : Rotator, r.pool ≠ []) := by
  refine ⟨rfl, ?_, by rfl, fun r => r.pool_ok⟩
  intro env he
  simp [moduleInit, he]

/-- C8 witness: the environment binding the key to the empty string
fails at module construction. -/
theorem c8_empty_pool_fails_at_construction_witness :
    (fun _ => some emptyStr : String → Option String) envGeminiKey = some emptyStr
  ∧ moduleInit (fun _ => some emptyStr) = .error msgKeyNotSet :=
  ⟨rfl, c8_empty_pool_fails_at_construction.2.1 (fun _ => some emptyStr) rfl⟩

/-- C9: agent resolution is total: a configuration delivered by the
external declarative source is used as-is; on any failure of that
source — unavailable, role missing, malformed — the embedded fallback
table answers, defaulting to the central orchestrator entry for
unknown role ids, and for every role id the fallback is a usable spec
with non-empty role, goal and backstory. -/
theorem c9_agent_fallback_total :
    (∀ ext key c, ext key = some c → resolveAgent ext key = c)
  ∧ (∀ ext key, ext key = none → resolveAgent ext key = embeddedFallback key)
  ∧ (∀ key, usableAgent (embeddedFallback key) = true)
  ∧ (∀ key, fallbackConfigs.find? (fun p => p.1 == key) = none →
      embeddedFallback key = orchestratorDefault) := by
  refine ⟨?_, ?_, ?_, ?_⟩
  · intro ext key c hc
    simp [resolveAgent, hc]
  · intro ext key hn
    simp [resolveAgent, hn]
  · intro key
    unfold embeddedFallback
    cases hf : fallbackConfigs.find? (fun p => p.1 == key) with
    | none => decide
    | some p =>
      have hp := List.mem_of_find?_eq_some hf
      have hall : ∀ q ∈ fallbackConfigs, usableAgent q.2 = true := by decide
      simpa using hall p hp
  · intro key hn
    simp [embeddedFallback, hn]

/-- C9 witness: an unavailable source resolves an unknown role id to
the usable orchestrator fallback. -/
theorem c9_agent_fallback_total_witness :
    (fun _ => none : String → Option AgentConfig) extraFieldName = none
  ∧ resolveAgent (fun _ => none) extraFieldName = embeddedFallback extraFieldName :=
  ⟨rfl, c9_agent_fallback_total.2.1 (fun _ => none) extraFieldName rfl⟩

/-- C10: validating the empty record succeeds for each of the four
report models and yields exactly the declared defaults (SurgeReport
risk_level Medium and confidence_score 0.7, StaffingPlan
required_staff 10, InventoryRequirement required_quantity 100,
PatientAdvisory defaults, StaffingPlanList root the empty list), and
every well-formed record validates — so no field is effectively
required and a missing-field validation failure cannot occur. -/
theorem c10_empty_record_defaults :
    validateRecord surgeReportSchema []
        = .ok [(fReportType, .str dGeneralForecast), (fRegion, .str dUnknown),
               (fRiskLevel, .str dMedium), (fTimeline, .str dNext30Days),
               (fAffectedDepartments, .strList [dEmergency, dGeneralMedicine]),
               (fRecommendations, .str dStdPreparedness),
               (fConfidenceScore, .num ((7 : ℚ) / 10))]
  ∧ validateRecord staffingPlanSchema []
        = .ok [(fDepartment, .str dEmergency), (fRequiredStaff, .int 10),
               (fStaffType, .str dMixed), (fShiftSchedule, .str dStdShifts),
               (fBackupPlan, .str dOnCall)]
  ∧ validateRecord inventoryRequirementSchema []
        = .ok [(fItemCategory, .str dGeneralCat), (fItemName, .str dBasicSupplies),
               (fRequiredQuantity, .int 100), (fCurrentStock, .int 50),
               (fReorderThreshold, .int 25), (fUrgency, .str dMedium)]
  ∧ validateRecord patientAdvisorySchema []
        = .ok [(fAdvisoryType, .str dGeneralLower), (fLanguage, .str dEnglish),
               (fTargetAudience, .str dGeneralPublic), (fMessage, .str dFollowGuidelines),
               (fDistributionChannels, .strList [dHospitalWebsite, dSocialMedia])]
  ∧ staffingPlanListDefault = []
  ∧ (∀ schema, (schema = surgeReportSchema ∨ schema = staffingPlanSchema
        ∨ schema = inventoryRequirementSchema ∨ schema = patientAdvisorySchema) →
      ∀ rec, wellFormed schema rec = true → okB (validateRecord schema rec) = true) := by
  refine ⟨by rfl, by rfl, by rfl, by rfl, rfl, ?_⟩
  intro schema _ rec hwf
  exact validateRecord_wf_ok schema rec hwf

/-- C10 witness: a partial staffing plan record validates. -/
theorem c10_empty_record_defaults_witness :
    wellFormed staffingPlanSchema [(fRequiredStaff, JVal.int 25)] = true
  ∧ okB (validateRecord staffingPlanSchema [(fRequiredStaff, JVal.int 25)]) = true :=
  ⟨by decide,
   c10_empty_record_defaults.2.2.2.2.2 staffingPlanSchema (Or.inr (Or.inl rfl))
     [(fRequiredStaff, JVal.int 25)] (by decide)⟩

end JeevanSetu
